import Mathlib

/-
Verification of the Game-of-Life simulation engine and its renderer glue.

The repository ships the renderer glue (www/index.js) together with a
wasm-compiled simulation engine (the Universe).  The engine itself is not
among the shipped sources, so its operations are modelled here from the
specification; the renderer's click-coordinate computation is embedded
directly from www/index.js.
-/

namespace GoL

/-- Modelled from the spec: a cell is a two-valued state, Alive or Dead
(spec section 3, Cell). -/
inductive Cell where
  | Dead : Cell
  | Alive : Cell
deriving DecidableEq

/-- Modelled from the spec: the Universe owns a fixed rows x cols grid of
cells stored row-major; dimensions are set at construction and immutable
(spec section 3, Grid). The engine source is not under the shipped sources,
so this structure follows the spec words. -/
structure Universe where
  rows : Nat
  cols : Nat
  cells : List Cell
deriving DecidableEq

/-- The grid buffer has length rows * cols (spec section 3, invariants). -/
def wellFormed (u : Universe) : Prop :=
  u.cells.length = u.rows * u.cols

instance (u : Universe) : Decidable (wellFormed u) :=
  inferInstanceAs (Decidable (_ = _))

/-- Modelled from the spec: the linear index of coordinate (row, col) into
the row-major grid buffer is row * cols + col (spec section 3, Coordinate). -/
def getIndex (u : Universe) (row col : Nat) : Nat :=
  row * u.cols + col

/-- Read the cell at (row, col); out-of-range reads default to Dead. -/
def getCell (u : Universe) (row col : Nat) : Cell :=
  u.cells.getD (getIndex u row col) Cell.Dead

/-- Modelled from the spec: the exported state buffer, a read view of the
grid (spec section 4.3, state). -/
def state (u : Universe) : List Cell :=
  u.cells

/-- Modelled from the spec: construction allocates a rows * cols grid,
deterministically fully initialized (spec section 4.1); all cells start Dead. -/
def Universe.new (rows cols : Nat) : Universe :=
  { rows := rows, cols := cols, cells := List.replicate (rows * cols) Cell.Dead }

/-- Modelled from the spec: the neighbor offset deltas used by the engine,
in the style of adding rows-1 / 0 / 1 and reducing modulo the dimension,
which realizes the -1 / 0 / +1 toroidal offsets; the (0,0) self offset is
excluded (spec sections 3 and 4.2). -/
def neighborDeltas (rows cols : Nat) : List (Nat × Nat) :=
  [(rows - 1, cols - 1), (rows - 1, 0), (rows - 1, 1),
   (0, cols - 1), (0, 1),
   (1, cols - 1), (1, 0), (1, 1)]

/-- Modelled from the spec: the live-neighbor count of (row, col), counted
over the 8 toroidally-wrapped neighbors (spec section 4.2). -/
def liveNeighborCount (u : Universe) (row col : Nat) : Nat :=
  (neighborDeltas u.rows u.cols).countP
    (fun d => decide (getCell u ((row + d.1) % u.rows) ((col + d.2) % u.cols) = Cell.Alive))

/-- Modelled from the spec: the standard birth/survival rule applied to a
single cell, reading only the previous-generation grid u (spec section 4.2). -/
def nextCell (u : Universe) (row col : Nat) : Cell :=
  let n := liveNeighborCount u row col
  match getCell u row col with
  | Cell.Alive => if n = 2 ∨ n = 3 then Cell.Alive else Cell.Dead
  | Cell.Dead => if n = 3 then Cell.Alive else Cell.Dead

/-- Modelled from the spec: tick computes every cell of the next generation
from the previous-generation grid u alone (a read-only snapshot), then
replaces the whole buffer (spec section 4.2). -/
def tick (u : Universe) : Universe :=
  { u with cells :=
      (List.range (u.rows * u.cols)).map (fun i => nextCell u (i / u.cols) (i % u.cols)) }

/-- Modelled from the spec: the error kinds signalled by the engine
(spec section 7). -/
inductive GolError where
  | InvalidDimensions : GolError
  | OutOfBounds : GolError
  | InvalidProbability : GolError
deriving DecidableEq

/-- Flip a single cell value. -/
def Cell.toggle : Cell → Cell
  | Cell.Dead => Cell.Alive
  | Cell.Alive => Cell.Dead

/-- Modelled from the spec: toggle_cell flips the cell at (row, col); an
out-of-bounds coordinate signals OutOfBounds and changes nothing
(spec sections 4.4 and 7). -/
def toggle_cell (u : Universe) (row col : Nat) : Except GolError Universe :=
  if row < u.rows ∧ col < u.cols then
    Except.ok { u with cells := u.cells.set (getIndex u row col) (getCell u row col).toggle }
  else
    Except.error GolError.OutOfBounds

/-- Modelled from the spec: clear sets every cell to Dead (spec section 4.5). -/
def clear (u : Universe) : Universe :=
  { u with cells := List.replicate (u.rows * u.cols) Cell.Dead }

/-- Modelled from the spec: randomize sets each cell Alive with probability
p independently, using an unspecified random source; the source is modelled
as a supplied stream of uniform samples in [0, 1), one per cell index.  A
probability outside [0, 1] signals InvalidProbability (spec sections 4.6 and 7). -/
def randomize (u : Universe) (p : ℚ) (rand : Nat → ℚ) : Except GolError Universe :=
  if 0 ≤ p ∧ p ≤ 1 then
    let sampled := (List.range (u.rows * u.cols)).map
      (fun i => if rand i < p then Cell.Alive else Cell.Dead)
    Except.ok { u with cells := sampled }
  else
    Except.error GolError.InvalidProbability

/-- Modelled from the spec: the two named pattern stamps (spec section 3,
Pattern). -/
inductive Pattern where
  | Glider : Pattern
  | Pulsar : Pattern
deriving DecidableEq

/-- Modelled from the spec: the canonical 5-cell 3x3 glider offsets
(spec section 4.7). -/
def gliderOffsets : List (Int × Int) :=
  [(0, 1), (1, 2), (2, 0), (2, 1), (2, 2)]

/-- Modelled from the spec: the canonical 48-cell 13x13 pulsar offsets,
symmetric about the anchor (spec section 4.7). -/
def pulsarOffsets : List (Int × Int) :=
  [(2, 1), (3, 1), (4, 1), (2, 6), (3, 6), (4, 6),
   (1, 2), (1, 3), (1, 4), (6, 2), (6, 3), (6, 4),
   (2, -1), (3, -1), (4, -1), (2, -6), (3, -6), (4, -6),
   (1, -2), (1, -3), (1, -4), (6, -2), (6, -3), (6, -4),
   (-2, 1), (-3, 1), (-4, 1), (-2, 6), (-3, 6), (-4, 6),
   (-1, 2), (-1, 3), (-1, 4), (-6, 2), (-6, 3), (-6, 4),
   (-2, -1), (-3, -1), (-4, -1), (-2, -6), (-3, -6), (-4, -6),
   (-1, -2), (-1, -3), (-1, -4), (-6, -2), (-6, -3), (-6, -4)]

/-- The offset table of each pattern. -/
def patternOffsets : Pattern → List (Int × Int)
  | Pattern.Glider => gliderOffsets
  | Pattern.Pulsar => pulsarOffsets

/-- Reduce an integer coordinate modulo a dimension, yielding a Nat index. -/
def wrapIdx (n : Nat) (a : Int) : Nat :=
  (a % (n : Int)).toNat

/-- Modelled from the spec: the absolute grid cells covered by a pattern
anchored at (row, col), each offset taken modulo rows / cols
(spec section 4.7). -/
def patternCells (pat : Pattern) (rows cols row col : Nat) : List (Nat × Nat) :=
  (patternOffsets pat).map
    (fun d => (wrapIdx rows ((row : Int) + d.1), wrapIdx cols ((col : Int) + d.2)))

/-- Set a single cell to Alive. -/
def setAlive (u : Universe) (row col : Nat) : Universe :=
  { u with cells := u.cells.set (getIndex u row col) Cell.Alive }

/-- Stamp a list of absolute cells Alive, left to right. -/
def stampCells (L : List (Nat × Nat)) (u : Universe) : Universe :=
  L.foldl (fun v p => setAlive v p.1 p.2) u

/-- Modelled from the spec: add_pattern validates the anchor in-bounds,
then sets every pattern cell (toroidally wrapped) to Alive; an out-of-bounds
anchor signals OutOfBounds and changes nothing (spec sections 4.7 and 7). -/
def add_pattern (u : Universe) (pat : Pattern) (row col : Nat) : Except GolError Universe :=
  if row < u.rows ∧ col < u.cols then
    Except.ok (stampCells (patternCells pat u.rows u.cols row col) u)
  else
    Except.error GolError.OutOfBounds

/-- One engine operation, as driven by the external renderer. -/
inductive Op where
  | step : Op
  | toggle (row col : Nat) : Op
  | wipe : Op
  | random (p : ℚ) (rand : Nat → ℚ) : Op
  | stamp (pat : Pattern) (row col : Nat) : Op

/-- Apply one operation; a fallible operation that errors leaves the
universe unchanged. -/
def applyOp (u : Universe) : Op → Universe
  | Op.step => tick u
  | Op.toggle row col => ((toggle_cell u row col).toOption).getD u
  | Op.wipe => clear u
  | Op.random p rand => ((randomize u p rand).toOption).getD u
  | Op.stamp pat row col => ((add_pattern u pat row col).toOption).getD u

/-- Apply a sequence of operations in order. -/
def applyOps (u : Universe) (ops : List Op) : Universe :=
  ops.foldl applyOp u

/-- The spec formulation of the neighbor offsets: row and col offset by
-1, 0, +1 (the cell itself excluded), as signed integers. -/
def specNeighborDeltas : List (Int × Int) :=
  [(-1, -1), (-1, 0), (-1, 1), (0, -1), (0, 1), (1, -1), (1, 0), (1, 1)]

/-- The spec formulation of the live-neighbor count: each signed offset is
added to the coordinate and reduced modulo the dimension. -/
def liveNeighborCountSpec (u : Universe) (row col : Nat) : Nat :=
  specNeighborDeltas.countP
    (fun d => decide (getCell u (wrapIdx u.rows ((row : Int) + d.1))
                               (wrapIdx u.cols ((col : Int) + d.2)) = Cell.Alive))

/-- The renderer's click-to-grid coordinate computation, from www/index.js:
Math.min(Math.floor(pos / (CELL_SIZE + 1)), n - 1), where pos is the canvas
pixel coordinate of the click and n the grid dimension. -/
def clickIndex (cellSize pos : ℚ) (n : Nat) : Int :=
  min ⌊pos / (cellSize + 1)⌋ ((n : Int) - 1)

/-! ### Basic helper lemmas -/

theorem rows_tick (u : Universe) : (tick u).rows = u.rows := rfl

theorem cols_tick (u : Universe) : (tick u).cols = u.cols := rfl

theorem rows_clear (u : Universe) : (clear u).rows = u.rows := rfl

theorem cols_clear (u : Universe) : (clear u).cols = u.cols := rfl

theorem rows_setAlive (u : Universe) (r c : Nat) : (setAlive u r c).rows = u.rows := rfl

theorem cols_setAlive (u : Universe) (r c : Nat) : (setAlive u r c).cols = u.cols := rfl

theorem index_lt (rows cols r c : Nat) (hr : r < rows) (hc : c < cols) :
    r * cols + c < rows * cols := by
  calc r * cols + c < r * cols + cols := by omega
    _ = (r + 1) * cols := by ring
    _ ≤ rows * cols := Nat.mul_le_mul_right cols hr

theorem index_div (cols r c : Nat) (hc : c < cols) : (r * cols + c) / cols = r := by
  rw [Nat.mul_comm r cols, Nat.mul_add_div (by omega : 0 < cols)]
  simp [Nat.div_eq_of_lt hc]

theorem index_mod (cols r c : Nat) (hc : c < cols) : (r * cols + c) % cols = c := by
  rw [Nat.mul_comm r cols, Nat.mul_add_mod]
  exact Nat.mod_eq_of_lt hc

theorem index_inj (cols r1 c1 r2 c2 : Nat) (hc1 : c1 < cols) (hc2 : c2 < cols) :
    r1 * cols + c1 = r2 * cols + c2 ↔ r1 = r2 ∧ c1 = c2 := by
  constructor
  · intro h
    have h1 : (r1 * cols + c1) / cols = (r2 * cols + c2) / cols := by rw [h]
    have h2 : (r1 * cols + c1) % cols = (r2 * cols + c2) % cols := by rw [h]
    rw [index_div cols r1 c1 hc1, index_div cols r2 c2 hc2] at h1
    rw [index_mod cols r1 c1 hc1, index_mod cols r2 c2 hc2] at h2
    exact ⟨h1, h2⟩
  · rintro ⟨rfl, rfl⟩
    rfl

theorem getD_map_range (n i : Nat) (f : Nat → Cell) (h : i < n) :
    (((List.range n).map f).getD i Cell.Dead) = f i := by
  rw [List.getD_eq_getElem?_getD, List.getElem?_map, List.getElem?_range h]
  rfl

theorem getCell_tick (u : Universe) (r c : Nat) (hr : r < u.rows) (hc : c < u.cols) :
    getCell (tick u) r c = nextCell u r c := by
  show (((List.range (u.rows * u.cols)).map
      (fun i => nextCell u (i / u.cols) (i % u.cols))).getD (r * u.cols + c) Cell.Dead) = _
  rw [getD_map_range _ _ _ (index_lt u.rows u.cols r c hr hc)]
  rw [index_div u.cols r c hc, index_mod u.cols r c hc]

/-! ### C1: the tick rule -/

/-- C1: tick advances the grid by one generation computed from the
previous-generation grid alone: the new cell at (r, c) is Alive exactly when
the old cell was Alive with live-neighbor count 2 or 3, or the old cell was
Dead with live-neighbor count 3 — where cell reads and neighbor counts all
refer to the pre-tick universe u, so no update observes an already-updated
cell. -/
theorem tick_snapshot_rule (u : Universe) (r c : Nat) (hr : r < u.rows) (hc : c < u.cols) :
    getCell (tick u) r c = Cell.Alive ↔
      ((getCell u r c = Cell.Alive ∧
          (liveNeighborCount u r c = 2 ∨ liveNeighborCount u r c = 3)) ∨
       (getCell u r c = Cell.Dead ∧ liveNeighborCount u r c = 3)) := by
  rw [getCell_tick u r c hr hc]
  unfold nextCell
  cases hcell : getCell u r c <;> simp only [hcell] <;> split_ifs <;> simp_all

/-- Witness for C1 at a concrete universe: a 3-cell column (blinker) on a
4 x 4 grid; its center cell survives with exactly 2 live neighbors. -/
theorem tick_snapshot_rule_witness :
    getCell (tick (stampCells [(0, 1), (1, 1), (2, 1)] (Universe.new 4 4))) 1 1 = Cell.Alive ↔
      ((getCell (stampCells [(0, 1), (1, 1), (2, 1)] (Universe.new 4 4)) 1 1 = Cell.Alive ∧
          (liveNeighborCount (stampCells [(0, 1), (1, 1), (2, 1)] (Universe.new 4 4)) 1 1 = 2 ∨
           liveNeighborCount (stampCells [(0, 1), (1, 1), (2, 1)] (Universe.new 4 4)) 1 1 = 3)) ∨
       (getCell (stampCells [(0, 1), (1, 1), (2, 1)] (Universe.new 4 4)) 1 1 = Cell.Dead ∧
          liveNeighborCount (stampCells [(0, 1), (1, 1), (2, 1)] (Universe.new 4 4)) 1 1 = 3)) :=
  tick_snapshot_rule (stampCells [(0, 1), (1, 1), (2, 1)] (Universe.new 4 4)) 1 1
    (by decide) (by decide)

/-! ### C2: toroidal neighbor arithmetic -/

theorem wrapIdx_natCast (n m : Nat) : wrapIdx n ((m : Nat) : Int) = m % n := by
  unfold wrapIdx
  rw [← Int.natCast_mod, Int.toNat_natCast]

theorem wrapIdx_add_zero (n r : Nat) : wrapIdx n ((r : Int) + 0) = (r + 0) % n := by
  have h : ((r : Int) + 0) = ((r + 0 : Nat) : Int) := by push_cast; ring
  rw [h, wrapIdx_natCast]

theorem wrapIdx_add_one (n r : Nat) : wrapIdx n ((r : Int) + 1) = (r + 1) % n := by
  have h : ((r : Int) + 1) = ((r + 1 : Nat) : Int) := by push_cast; ring
  rw [h, wrapIdx_natCast]

theorem wrapIdx_sub_one (n r : Nat) (h : r < n) :
    wrapIdx n ((r : Int) + (-1)) = (r + (n - 1)) % n := by
  unfold wrapIdx
  have h2 : (((r + (n - 1) : Nat) : Int)) = (r : Int) + (-1) + (n : Int) * 1 := by
    push_cast [Nat.cast_sub (by omega : 1 ≤ n)]
    ring
  rw [show ((r : Int) + (-1)) % (n : Int) = (((r + (n - 1) : Nat) : Int)) % (n : Int) by
        rw [h2, Int.add_mul_emod_self_left],
      ← Int.natCast_mod, Int.toNat_natCast]

/-- C2: the live-neighbor count used by tick is taken over exactly 8
neighbors, obtained by offsetting row and col by -1, 0, +1 (the cell itself
excluded) with the arithmetic performed modulo rows and cols; this holds for
every in-bounds coordinate, corners included, so no cell has fewer than 8
neighbors. -/
theorem neighbor_count_toroidal (u : Universe) (r c : Nat) (hr : r < u.rows) (hc : c < u.cols) :
    specNeighborDeltas.length = 8 ∧
    ((0 : Int), (0 : Int)) ∉ specNeighborDeltas ∧
    liveNeighborCount u r c = liveNeighborCountSpec u r c := by
  refine ⟨by decide, by decide, ?_⟩
  simp only [liveNeighborCount, liveNeighborCountSpec, neighborDeltas, specNeighborDeltas,
    List.countP_cons, List.countP_nil, wrapIdx_sub_one u.rows r hr, wrapIdx_sub_one u.cols c hc,
    wrapIdx_add_zero, wrapIdx_add_one]

/-- Witness for C2 at a concrete corner cell of a 3 x 5 grid. -/
theorem neighbor_count_toroidal_witness :
    specNeighborDeltas.length = 8 ∧
    ((0 : Int), (0 : Int)) ∉ specNeighborDeltas ∧
    liveNeighborCount (Universe.new 3 5) 0 0 = liveNeighborCountSpec (Universe.new 3 5) 0 0 :=
  neighbor_count_toroidal (Universe.new 3 5) 0 0 (by decide) (by decide)

/-! ### C3: the exported buffer length is invariant -/

theorem rows_stampCells (L : List (Nat × Nat)) (u : Universe) :
    (stampCells L u).rows = u.rows := by
  induction L generalizing u with
  | nil => rfl
  | cons p L ih => exact (ih (setAlive u p.1 p.2)).trans rfl

theorem cols_stampCells (L : List (Nat × Nat)) (u : Universe) :
    (stampCells L u).cols = u.cols := by
  induction L generalizing u with
  | nil => rfl
  | cons p L ih => exact (ih (setAlive u p.1 p.2)).trans rfl

theorem length_stampCells (L : List (Nat × Nat)) (u : Universe) :
    (stampCells L u).cells.length = u.cells.length := by
  induction L generalizing u with
  | nil => rfl
  | cons p L ih =>
      exact (ih (setAlive u p.1 p.2)).trans (List.length_set u.cells _ _)

theorem rows_applyOp (u : Universe) (op : Op) : (applyOp u op).rows = u.rows := by
  cases op with
  | step => rfl
  | toggle r c =>
      simp only [applyOp, toggle_cell]
      split_ifs <;> rfl
  | wipe => rfl
  | random p rand =>
      simp only [applyOp, randomize]
      split_ifs <;> rfl
  | stamp pat r c =>
      simp only [applyOp, add_pattern]
      split_ifs with h
      · exact rows_stampCells _ u
      · rfl

theorem cols_applyOp (u : Universe) (op : Op) : (applyOp u op).cols = u.cols := by
  cases op with
  | step => rfl
  | toggle r c =>
      simp only [applyOp, toggle_cell]
      split_ifs <;> rfl
  | wipe => rfl
  | random p rand =>
      simp only [applyOp, randomize]
      split_ifs <;> rfl
  | stamp pat r c =>
      simp only [applyOp, add_pattern]
      split_ifs with h
      · exact cols_stampCells _ u
      · rfl

theorem wf_applyOp (u : Universe) (op : Op) (h : wellFormed u) : wellFormed (applyOp u op) := by
  cases op with
  | step => simp [wellFormed, applyOp, tick]
  | toggle r c =>
      simp only [applyOp, toggle_cell]
      split_ifs with hb
      · show wellFormed { u with cells := u.cells.set (getIndex u r c) (getCell u r c).toggle }
        simpa [wellFormed] using h
      · exact h
  | wipe => simp [wellFormed, applyOp, clear]
  | random p rand =>
      simp only [applyOp, randomize]
      split_ifs with hb
      · show wellFormed { u with cells := (List.range (u.rows * u.cols)).map (fun i => if rand i < p then Cell.Alive else Cell.Dead) }
        simp [wellFormed]
      · exact h
  | stamp pat r c =>
      simp only [applyOp, add_pattern]
      split_ifs with hb
      · show wellFormed (stampCells _ u)
        unfold wellFormed
        rw [length_stampCells, rows_stampCells, cols_stampCells]
        exact h
      · exact h

theorem rows_applyOps (u : Universe) (ops : List Op) : (applyOps u ops).rows = u.rows := by
  induction ops generalizing u with
  | nil => rfl
  | cons op ops ih => exact (ih (applyOp u op)).trans (rows_applyOp u op)

theorem cols_applyOps (u : Universe) (ops : List Op) : (applyOps u ops).cols = u.cols := by
  induction ops generalizing u with
  | nil => rfl
  | cons op ops ih => exact (ih (applyOp u op)).trans (cols_applyOp u op)

theorem wf_applyOps (u : Universe) (ops : List Op) (h : wellFormed u) :
    wellFormed (applyOps u ops) := by
  induction ops generalizing u with
  | nil => exact h
  | cons op ops ih => exact ih (applyOp u op) (wf_applyOp u op h)

theorem wf_new (rows cols : Nat) : wellFormed (Universe.new rows cols) := by
  simp [wellFormed, Universe.new]

/-- C3: in a Universe built by new (rows, cols), after any sequence of tick,
toggle_cell, clear, randomize and add_pattern operations, the buffer
returned by state() has length exactly rows * cols, and the cell at
(row, col) is the entry of that buffer at linear index row * cols + col
(row-major layout). -/
theorem state_length_row_major (rows cols : Nat) (ops : List Op) :
    (state (applyOps (Universe.new rows cols) ops)).length = rows * cols ∧
    ∀ r c : Nat, getCell (applyOps (Universe.new rows cols) ops) r c =
      (state (applyOps (Universe.new rows cols) ops)).getD (r * cols + c) Cell.Dead := by
  have hwf : wellFormed (applyOps (Universe.new rows cols) ops) :=
    wf_applyOps _ ops (wf_new rows cols)
  have hrows : (applyOps (Universe.new rows cols) ops).rows = rows :=
    rows_applyOps _ ops
  have hcols : (applyOps (Universe.new rows cols) ops).cols = cols :=
    cols_applyOps _ ops
  constructor
  · show (applyOps (Universe.new rows cols) ops).cells.length = rows * cols
    rw [hwf, hrows, hcols]
  · intro r c
    show (applyOps (Universe.new rows cols) ops).cells.getD
        (r * (applyOps (Universe.new rows cols) ops).cols + c) Cell.Dead = _
    rw [hcols]
    rfl

/-! ### C4: toggle_cell is an involution on its cell and touches no other -/

theorem toggle_toggle (x : Cell) : x.toggle.toggle = x := by
  cases x <;> rfl

theorem getD_set_self (l : List Cell) (i : Nat) (a : Cell) (h : i < l.length) :
    (l.set i a).getD i Cell.Dead = a := by
  rw [List.getD_eq_getElem?_getD, List.getElem?_set_self h]
  rfl

theorem getD_set_ne (l : List Cell) (i j : Nat) (a : Cell) (h : i ≠ j) :
    (l.set i a).getD j Cell.Dead = l.getD j Cell.Dead := by
  rw [List.getD_eq_getElem?_getD, List.getElem?_set_ne h, ← List.getD_eq_getElem?_getD]

theorem set_getD_self (l : List Cell) (i : Nat) (h : i < l.length) :
    l.set i (l.getD i Cell.Dead) = l := by
  apply List.ext_getElem?
  intro j
  by_cases hij : i = j
  · subst hij
    rw [List.getElem?_set_self h, List.getD_eq_getElem?_getD, List.getElem?_eq_getElem h]
    rfl
  · exact List.getElem?_set_ne hij

theorem Universe.eq_of (u v : Universe) (h1 : u.rows = v.rows) (h2 : u.cols = v.cols)
    (h3 : u.cells = v.cells) : u = v := by
  cases u
  cases v
  cases h1
  cases h2
  cases h3
  rfl

/-- C4: for an in-bounds coordinate, toggle_cell succeeds, applying it twice
returns the original universe (involution), and one application leaves every
cell other than (r, c) unchanged. -/
theorem toggle_cell_involution (u : Universe) (hwf : wellFormed u) (r c : Nat)
    (hr : r < u.rows) (hc : c < u.cols) :
    ∃ u', toggle_cell u r c = Except.ok u' ∧
      toggle_cell u' r c = Except.ok u ∧
      ∀ r' c', r' < u.rows → c' < u.cols → ¬(r' = r ∧ c' = c) →
        getCell u' r' c' = getCell u r' c' := by
  have hidx : getIndex u r c < u.cells.length := by
    rw [hwf]
    exact index_lt _ _ _ _ hr hc
  refine ⟨{ u with cells := u.cells.set (getIndex u r c) (getCell u r c).toggle },
    by simp [toggle_cell, hr, hc], ?_, ?_⟩
  · show (if r < u.rows ∧ c < u.cols then _ else _) = _
    rw [if_pos ⟨hr, hc⟩]
    refine congrArg Except.ok (Universe.eq_of _ _ rfl rfl ?_)
    have hcell : getCell { u with cells := u.cells.set (getIndex u r c) (getCell u r c).toggle } r c
        = (getCell u r c).toggle := getD_set_self _ _ _ hidx
    show (u.cells.set (getIndex u r c) (getCell u r c).toggle).set (getIndex u r c) _ = u.cells
    rw [hcell, toggle_toggle, List.set_set]
    exact set_getD_self u.cells _ hidx
  · intro r' c' hr' hc' hne
    show (u.cells.set (getIndex u r c) (getCell u r c).toggle).getD (getIndex u r' c') Cell.Dead = _
    have hne2 : getIndex u r c ≠ getIndex u r' c' := by
      intro he
      have hp := (index_inj u.cols r c r' c' hc hc').mp he
      exact hne ⟨hp.1.symm, hp.2.symm⟩
    exact getD_set_ne _ _ _ _ hne2

/-- Witness for C4 on a concrete 2 x 3 grid at cell (1, 2). -/
theorem toggle_cell_involution_witness :
    ∃ u', toggle_cell (Universe.new 2 3) 1 2 = Except.ok u' ∧
      toggle_cell u' 1 2 = Except.ok (Universe.new 2 3) ∧
      ∀ r' c', r' < (Universe.new 2 3).rows → c' < (Universe.new 2 3).cols →
        ¬(r' = 1 ∧ c' = 2) → getCell u' r' c' = getCell (Universe.new 2 3) r' c' :=
  toggle_cell_involution (Universe.new 2 3) (by decide) 1 2 (by decide) (by decide)

/-! ### C5: out-of-bounds coordinates signal OutOfBounds, grid untouched -/

/-- C5: with an out-of-bounds coordinate (row not below rows or col not
below cols), toggle_cell and add_pattern (for any pattern — the anchor is
validated even though pattern offsets wrap) signal the OutOfBounds error
kind, and the operation leaves the grid byte-for-byte unchanged: the
driver that keeps its universe on error keeps exactly u. -/
theorem out_of_bounds_error (u : Universe) (pat : Pattern) (r c : Nat)
    (h : ¬(r < u.rows ∧ c < u.cols)) :
    toggle_cell u r c = Except.error GolError.OutOfBounds ∧
    add_pattern u pat r c = Except.error GolError.OutOfBounds ∧
    applyOp u (Op.toggle r c) = u ∧
    applyOp u (Op.stamp pat r c) = u := by
  have h1 : toggle_cell u r c = Except.error GolError.OutOfBounds := by
    simp [toggle_cell, h]
  have h2 : add_pattern u pat r c = Except.error GolError.OutOfBounds := by
    simp [add_pattern, h]
  refine ⟨h1, h2, ?_, ?_⟩
  · show ((toggle_cell u r c).toOption).getD u = u
    rw [h1]
    rfl
  · show ((add_pattern u pat r c).toOption).getD u = u
    rw [h2]
    rfl

/-- Witness for C5 on a 2 x 2 grid with row index 5 out of bounds. -/
theorem out_of_bounds_error_witness :
    toggle_cell (Universe.new 2 2) 5 0 = Except.error GolError.OutOfBounds ∧
    add_pattern (Universe.new 2 2) Pattern.Glider 5 0 = Except.error GolError.OutOfBounds ∧
    applyOp (Universe.new 2 2) (Op.toggle 5 0) = Universe.new 2 2 ∧
    applyOp (Universe.new 2 2) (Op.stamp Pattern.Glider 5 0) = Universe.new 2 2 :=
  out_of_bounds_error (Universe.new 2 2) Pattern.Glider 5 0 (by decide)

/-! ### C6: add_pattern stamps exactly the pattern cells -/

theorem wf_setAlive (u : Universe) (a b : Nat) (h : wellFormed u) :
    wellFormed (setAlive u a b) := by
  show (u.cells.set _ _).length = u.rows * u.cols
  rw [List.length_set]
  exact h

theorem getCell_setAlive (u : Universe) (hwf : wellFormed u) (a b r c : Nat)
    (ha : a < u.rows) (hb : b < u.cols) (hc : c < u.cols) :
    getCell (setAlive u a b) r c = if r = a ∧ c = b then Cell.Alive else getCell u r c := by
  have hidx : getIndex u a b < u.cells.length := by
    rw [hwf]
    exact index_lt _ _ _ _ ha hb
  show (u.cells.set (getIndex u a b) Cell.Alive).getD (getIndex u r c) Cell.Dead = _
  split_ifs with h
  · obtain ⟨rfl, rfl⟩ := h
    exact getD_set_self _ _ _ hidx
  · refine getD_set_ne _ _ _ _ ?_
    intro he
    have hp := (index_inj u.cols a b r c hb hc).mp he
    exact h ⟨hp.1.symm, hp.2.symm⟩

theorem getCell_stampCells (L : List (Nat × Nat)) (u : Universe) (hwf : wellFormed u)
    (hL : ∀ p ∈ L, p.1 < u.rows ∧ p.2 < u.cols) (r c : Nat) (hc : c < u.cols) :
    (getCell (stampCells L u) r c = Cell.Alive ↔
      (r, c) ∈ L ∨ getCell u r c = Cell.Alive) := by
  induction L generalizing u with
  | nil => simp [stampCells]
  | cons p L ih =>
      have hp := hL p (List.mem_cons_self p L)
      have hstep : stampCells (p :: L) u = stampCells L (setAlive u p.1 p.2) := rfl
      rw [hstep, ih (setAlive u p.1 p.2) (wf_setAlive u p.1 p.2 hwf)
            (fun q hq => hL q (List.mem_cons_of_mem p hq)) hc]
      rw [getCell_setAlive u hwf p.1 p.2 r c hp.1 hp.2 hc]
      constructor
      · rintro (hm | hcell)
        · exact Or.inl (List.mem_cons_of_mem p hm)
        · by_cases he : r = p.1 ∧ c = p.2
          · refine Or.inl (List.mem_cons_self p L |> fun _ => ?_)
            have : (r, c) = p := Prod.ext he.1 he.2
            rw [this]
            exact List.mem_cons_self p L
          · rw [if_neg he] at hcell
            exact Or.inr hcell
      · rintro (hm | hcell)
        · rcases List.mem_cons.mp hm with he | hm
          · have : r = p.1 ∧ c = p.2 := ⟨congrArg Prod.fst he, congrArg Prod.snd he⟩
            rw [if_pos this]
            exact Or.inr rfl
          · exact Or.inl hm
        · by_cases he : r = p.1 ∧ c = p.2
          · rw [if_pos he]
            exact Or.inr rfl
          · rw [if_neg he]
            exact Or.inr hcell

theorem getCell_stampCells_not_mem (L : List (Nat × Nat)) (u : Universe) (hwf : wellFormed u)
    (hL : ∀ p ∈ L, p.1 < u.rows ∧ p.2 < u.cols) (r c : Nat) (hc : c < u.cols)
    (hnm : (r, c) ∉ L) :
    getCell (stampCells L u) r c = getCell u r c := by
  induction L generalizing u with
  | nil => rfl
  | cons p L ih =>
      have hp := hL p (List.mem_cons_self p L)
      have hstep : stampCells (p :: L) u = stampCells L (setAlive u p.1 p.2) := rfl
      rw [hstep, ih (setAlive u p.1 p.2) (wf_setAlive u p.1 p.2 hwf)
            (fun q hq => hL q (List.mem_cons_of_mem p hq)) hc
            (fun hm => hnm (List.mem_cons_of_mem p hm))]
      rw [getCell_setAlive u hwf p.1 p.2 r c hp.1 hp.2 hc]
      rw [if_neg]
      intro he
      apply hnm
      have hpe : (r, c) = p := Prod.ext he.1 he.2
      rw [hpe]
      exact List.mem_cons_self p L

theorem wrapIdx_lt (n : Nat) (hn : 0 < n) (a : Int) : wrapIdx n a < n := by
  unfold wrapIdx
  have h0 : (0 : Int) < (n : Int) := by exact_mod_cast hn
  have h1 := Int.emod_nonneg a (by omega : (n : Int) ≠ 0)
  have h2 := Int.emod_lt_of_pos a h0
  omega

theorem patternCells_bounds (pat : Pattern) (rows cols r c : Nat)
    (hrows : 0 < rows) (hcols : 0 < cols) :
    ∀ p ∈ patternCells pat rows cols r c, p.1 < rows ∧ p.2 < cols := by
  intro p hp
  obtain ⟨d, hd, he⟩ := List.mem_map.mp hp
  rw [← he]
  exact ⟨wrapIdx_lt rows hrows _, wrapIdx_lt cols hcols _⟩

/-- C6: for an in-bounds anchor, add_pattern with the Glider succeeds and
sets Alive exactly the 5 canonical glider offsets taken modulo the grid
dimensions: a cell is Alive afterwards iff it is one of those wrapped cells
or was already Alive; every cell not covered keeps its prior state; and no
add_pattern call (any pattern) ever turns an Alive cell Dead. -/
theorem add_pattern_glider_exact (u : Universe) (hwf : wellFormed u) (r c : Nat)
    (hr : r < u.rows) (hc : c < u.cols) :
    gliderOffsets.length = 5 ∧
    (∃ u', add_pattern u Pattern.Glider r c = Except.ok u' ∧
      (∀ r' c', r' < u.rows → c' < u.cols →
        (getCell u' r' c' = Cell.Alive ↔
          (r', c') ∈ patternCells Pattern.Glider u.rows u.cols r c ∨
          getCell u r' c' = Cell.Alive)) ∧
      (∀ r' c', r' < u.rows → c' < u.cols →
        (r', c') ∉ patternCells Pattern.Glider u.rows u.cols r c →
        getCell u' r' c' = getCell u r' c')) ∧
    ∀ pat : Pattern, ∃ u2, add_pattern u pat r c = Except.ok u2 ∧
      ∀ r' c', r' < u.rows → c' < u.cols →
        getCell u r' c' = Cell.Alive → getCell u2 r' c' = Cell.Alive := by
  have hrows : 0 < u.rows := by omega
  have hcols : 0 < u.cols := by omega
  refine ⟨rfl, ⟨stampCells (patternCells Pattern.Glider u.rows u.cols r c) u,
      by simp [add_pattern, hr, hc], ?_, ?_⟩, ?_⟩
  · intro r' c' hr' hc'
    exact getCell_stampCells _ u hwf
      (patternCells_bounds Pattern.Glider u.rows u.cols r c hrows hcols) r' c' hc'
  · intro r' c' hr' hc' hnm
    exact getCell_stampCells_not_mem _ u hwf
      (patternCells_bounds Pattern.Glider u.rows u.cols r c hrows hcols) r' c' hc' hnm
  · intro pat
    refine ⟨stampCells (patternCells pat u.rows u.cols r c) u,
      by simp [add_pattern, hr, hc], ?_⟩
    intro r' c' hr' hc' halive
    exact (getCell_stampCells _ u hwf
      (patternCells_bounds pat u.rows u.cols r c hrows hcols) r' c' hc').mpr
      (Or.inr halive)

/-- Witness for C6 on a 5 x 5 grid with the anchor at (1, 1). -/
theorem add_pattern_glider_exact_witness :
    gliderOffsets.length = 5 ∧
    (∃ u', add_pattern (Universe.new 5 5) Pattern.Glider 1 1 = Except.ok u' ∧
      (∀ r' c', r' < (Universe.new 5 5).rows → c' < (Universe.new 5 5).cols →
        (getCell u' r' c' = Cell.Alive ↔
          (r', c') ∈ patternCells Pattern.Glider (Universe.new 5 5).rows
            (Universe.new 5 5).cols 1 1 ∨
          getCell (Universe.new 5 5) r' c' = Cell.Alive)) ∧
      (∀ r' c', r' < (Universe.new 5 5).rows → c' < (Universe.new 5 5).cols →
        (r', c') ∉ patternCells Pattern.Glider (Universe.new 5 5).rows
          (Universe.new 5 5).cols 1 1 →
        getCell u' r' c' = getCell (Universe.new 5 5) r' c')) ∧
    ∀ pat : Pattern, ∃ u2, add_pattern (Universe.new 5 5) pat 1 1 = Except.ok u2 ∧
      ∀ r' c', r' < (Universe.new 5 5).rows → c' < (Universe.new 5 5).cols →
        getCell (Universe.new 5 5) r' c' = Cell.Alive → getCell u2 r' c' = Cell.Alive :=
  add_pattern_glider_exact (Universe.new 5 5) (by decide) 1 1 (by decide) (by decide)

/-! ### C7: clear yields all-Dead and is idempotent -/

theorem getD_all_dead (l : List Cell) (h : ∀ x ∈ l, x = Cell.Dead) (i : Nat) :
    l.getD i Cell.Dead = Cell.Dead := by
  rw [List.getD_eq_getElem?_getD]
  cases hh : l[i]? with
  | none => rfl
  | some x => simp [h x (List.getElem?_mem hh)]

theorem getCell_all_dead (u : Universe) (h : ∀ x ∈ u.cells, x = Cell.Dead) (r c : Nat) :
    getCell u r c = Cell.Dead :=
  getD_all_dead u.cells h _

/-- C7: after clear every entry of the state buffer is Dead (so every cell
reads Dead), and clear is idempotent. -/
theorem clear_all_dead_idempotent (u : Universe) :
    (∀ x ∈ state (clear u), x = Cell.Dead) ∧
    (∀ r c : Nat, getCell (clear u) r c = Cell.Dead) ∧
    clear (clear u) = clear u := by
  have hmem : ∀ x ∈ state (clear u), x = Cell.Dead := by
    intro x hx
    exact List.eq_of_mem_replicate hx
  exact ⟨hmem, getCell_all_dead (clear u) hmem, rfl⟩

/-! ### C8: the all-Dead grid is a fixed point of tick -/

/-- C8: tick applied to an all-Dead grid returns the very same grid: a dead
cell has live-neighbor count 0, so no spontaneous birth occurs and the
all-Dead grid is a deterministic fixed point. -/
theorem tick_all_dead_fixed (u : Universe) (hwf : wellFormed u)
    (hdead : ∀ x ∈ u.cells, x = Cell.Dead) : tick u = u := by
  refine Universe.eq_of _ _ rfl rfl ?_
  show (List.range (u.rows * u.cols)).map (fun i => nextCell u (i / u.cols) (i % u.cols))
      = u.cells
  have hn : ∀ a b : Nat, liveNeighborCount u a b = 0 := by
    intro a b
    simp [liveNeighborCount, neighborDeltas, getCell_all_dead u hdead]
  have hnext : ∀ a b : Nat, nextCell u a b = Cell.Dead := by
    intro a b
    simp [nextCell, getCell_all_dead u hdead, hn]
  have hlen : ((List.range (u.rows * u.cols)).map
      (fun i => nextCell u (i / u.cols) (i % u.cols))).length = u.cells.length := by
    rw [List.length_map, List.length_range, hwf]
  apply List.ext_getElem hlen
  intro i h1 h2
  rw [List.getElem_map, List.getElem_range]
  rw [hnext]
  exact (hdead _ (List.getElem_mem h2)).symm

/-- Witness for C8: the cleared 2 x 2 grid is unchanged by tick. -/
theorem tick_all_dead_fixed_witness :
    tick (clear (Universe.new 2 2)) = clear (Universe.new 2 2) :=
  tick_all_dead_fixed (clear (Universe.new 2 2)) (by decide) (by decide)

/-! ### C9: the probability extremes of randomize are deterministic -/

/-- C9: with any random source whose samples lie in [0, 1), randomize with
probability 0 yields the all-Dead grid (the cleared universe) and randomize
with probability 1 yields the all-Alive grid, regardless of the prior state. -/
theorem randomize_extremes (u : Universe) (rand : Nat → ℚ)
    (h : ∀ i, 0 ≤ rand i ∧ rand i < 1) :
    randomize u 0 rand = Except.ok (clear u) ∧
    randomize u 1 rand =
      Except.ok { u with cells := List.replicate (u.rows * u.cols) Cell.Alive } := by
  constructor
  · show (if (0 : ℚ) ≤ 0 ∧ (0 : ℚ) ≤ 1 then _ else _) = _
    rw [if_pos (by norm_num)]
    refine congrArg Except.ok (Universe.eq_of _ _ rfl rfl ?_)
    show (List.range (u.rows * u.cols)).map
        (fun i => if rand i < 0 then Cell.Alive else Cell.Dead)
        = List.replicate (u.rows * u.cols) Cell.Dead
    have hdead : ∀ i ∈ List.range (u.rows * u.cols),
        (if rand i < 0 then Cell.Alive else Cell.Dead) = Cell.Dead := by
      intro i _
      rw [if_neg (not_lt.mpr (h i).1)]
    rw [List.map_eq_map_iff.mpr hdead]
    simp
  · show (if (0 : ℚ) ≤ 1 ∧ (1 : ℚ) ≤ 1 then _ else _) = _
    rw [if_pos (by norm_num)]
    refine congrArg Except.ok (Universe.eq_of _ _ rfl rfl ?_)
    show (List.range (u.rows * u.cols)).map
        (fun i => if rand i < 1 then Cell.Alive else Cell.Dead)
        = List.replicate (u.rows * u.cols) Cell.Alive
    have halive : ∀ i ∈ List.range (u.rows * u.cols),
        (if rand i < 1 then Cell.Alive else Cell.Dead) = Cell.Alive := by
      intro i _
      rw [if_pos (h i).2]
    rw [List.map_eq_map_iff.mpr halive]
    simp

/-- Witness for C9 with the constant-zero sample stream on a 1 x 2 grid. -/
theorem randomize_extremes_witness :
    randomize (Universe.new 1 2) 0 (fun _ => 0) = Except.ok (clear (Universe.new 1 2)) ∧
    randomize (Universe.new 1 2) 1 (fun _ => 0) =
      Except.ok { Universe.new 1 2 with
        cells := List.replicate ((Universe.new 1 2).rows * (Universe.new 1 2).cols)
          Cell.Alive } :=
  randomize_extremes (Universe.new 1 2) (fun _ => 0)
    (fun _ => ⟨le_refl 0, show (0 : ℚ) < 1 by decide⟩)

/-! ### C10: the renderer click handler only produces in-bounds coordinates -/

/-- C10: the renderer computes row and col as the floor of a non-negative
canvas coordinate divided by the cell pitch, clamped with min to the last
row / column index; for positive grid dimensions the result is always
in bounds, so toggle_cell and add_pattern called from the click handler can
never take the OutOfBounds branch. -/
theorem click_in_bounds (u : Universe) (cellSize canvasTop canvasLeft : ℚ)
    (hcs : 0 ≤ cellSize) (ht : 0 ≤ canvasTop) (hl : 0 ≤ canvasLeft)
    (hrows : 0 < u.rows) (hcols : 0 < u.cols) (pat : Pattern) :
    0 ≤ clickIndex cellSize canvasTop u.rows ∧
    (clickIndex cellSize canvasTop u.rows).toNat < u.rows ∧
    0 ≤ clickIndex cellSize canvasLeft u.cols ∧
    (clickIndex cellSize canvasLeft u.cols).toNat < u.cols ∧
    toggle_cell u (clickIndex cellSize canvasTop u.rows).toNat
      (clickIndex cellSize canvasLeft u.cols).toNat ≠ Except.error GolError.OutOfBounds ∧
    add_pattern u pat (clickIndex cellSize canvasTop u.rows).toNat
      (clickIndex cellSize canvasLeft u.cols).toNat ≠ Except.error GolError.OutOfBounds := by
  have key : ∀ (pos : ℚ) (n : Nat), 0 ≤ pos → 0 < n →
      0 ≤ clickIndex cellSize pos n ∧ (clickIndex cellSize pos n).toNat < n := by
    intro pos n hpos hn
    unfold clickIndex
    have hpitch : (0 : ℚ) < cellSize + 1 := by linarith
    have hfloor : 0 ≤ ⌊pos / (cellSize + 1)⌋ :=
      Int.floor_nonneg.mpr (div_nonneg hpos hpitch.le)
    have hub : min ⌊pos / (cellSize + 1)⌋ ((n : Int) - 1) ≤ (n : Int) - 1 :=
      min_le_right _ _
    have hlb : 0 ≤ min ⌊pos / (cellSize + 1)⌋ ((n : Int) - 1) :=
      le_min hfloor (by omega)
    exact ⟨hlb, by omega⟩
  obtain ⟨h1, h2⟩ := key canvasTop u.rows ht hrows
  obtain ⟨h3, h4⟩ := key canvasLeft u.cols hl hcols
  refine ⟨h1, h2, h3, h4, ?_, ?_⟩
  · simp [toggle_cell, h2, h4]
  · simp [add_pattern, h2, h4]

/-- Witness for C10: a far-right, far-bottom click on a 3 x 4 grid gets
clamped in bounds. -/
theorem click_in_bounds_witness :
    0 ≤ clickIndex 7 100 (Universe.new 3 4).rows ∧
    (clickIndex 7 100 (Universe.new 3 4).rows).toNat < (Universe.new 3 4).rows ∧
    0 ≤ clickIndex 7 100 (Universe.new 3 4).cols ∧
    (clickIndex 7 100 (Universe.new 3 4).cols).toNat < (Universe.new 3 4).cols ∧
    toggle_cell (Universe.new 3 4) (clickIndex 7 100 (Universe.new 3 4).rows).toNat
      (clickIndex 7 100 (Universe.new 3 4).cols).toNat
      ≠ Except.error GolError.OutOfBounds ∧
    add_pattern (Universe.new 3 4) Pattern.Glider
      (clickIndex 7 100 (Universe.new 3 4).rows).toNat
      (clickIndex 7 100 (Universe.new 3 4).cols).toNat
      ≠ Except.error GolError.OutOfBounds :=
  click_in_bounds (Universe.new 3 4) 7 100 100 (by decide) (by decide) (by decide)
    (by decide) (by decide) Pattern.Glider

end GoL
